import Mathlib

/-!
Shallow embedding of the capture/replay core of the Auto-Clicker repository
(`automation.py`, with its GUI caller `automation_gui.py`), together with
theorems settling the frozen claims about the capture filter
(`ActionRecorder`) and the replay scheduler (`ActionReplayer`).

Timestamps are modelled as rationals, key symbols as the strings the source
stores (`key.char` for character keys, `str(key)` for named keys), and the
pynput listener mechanics as explicit state: returning `False` from a
handler stops the keyboard listener, which we record in a `kbStopped` flag
gating delivery of later key events.
-/

namespace AutoClicker

/-! ### String helpers mirroring the Python string operations -/

/-- Substring containment on character lists: embeds Python `needle in hay`. -/
def hasSub (needle : List Char) : List Char → Bool
  | [] => needle.isEmpty
  | c :: t => needle.isPrefixOf (c :: t) || hasSub needle t

/-- Embeds Python `s.startswith(p)`. -/
def startsWithStr (s p : String) : Bool := p.data.isPrefixOf s.data

/-- Embeds Python `s.lower()` (all key strings involved are ASCII). -/
def lowerStr (s : String) : List Char := s.data.map Char.toLower

/-! ### Keys -/

/-- Named pynput `Key` members that the source mentions (control keys,
modifier variants, and the `special_keys` table of `_parse_key`). -/
inductive KName
  | f9 | esc | shift | shift_l | shift_r | alt | alt_l | alt_r | tab
  | space | enter | ctrl | backspace | delete | up | down | left | right
deriving DecidableEq, Repr

/-- A raw key as delivered by the listener: a named special key or a
character key carrying its printable character. -/
inductive Key
  | named (n : KName)
  | char (c : Char)
deriving DecidableEq, Repr

/-- Python `str(key)` for a named key. -/
def KName.str : KName → String
  | .f9 => "Key.f9"
  | .esc => "Key.esc"
  | .shift => "Key.shift"
  | .shift_l => "Key.shift_l"
  | .shift_r => "Key.shift_r"
  | .alt => "Key.alt"
  | .alt_l => "Key.alt_l"
  | .alt_r => "Key.alt_r"
  | .tab => "Key.tab"
  | .space => "Key.space"
  | .enter => "Key.enter"
  | .ctrl => "Key.ctrl"
  | .backspace => "Key.backspace"
  | .delete => "Key.delete"
  | .up => "Key.up"
  | .down => "Key.down"
  | .left => "Key.left"
  | .right => "Key.right"

/-- The string the recorder stores for a key: `key.char` if the key has a
printable character, else `str(key)` (automation.py lines 151-154, 188-191). -/
def keyStr : Key → String
  | .named n => n.str
  | .char c => ⟨[c]⟩

/-- `key == Key.shift or key == Key.shift_l or key == Key.shift_r`. -/
def isShiftKey : Key → Bool
  | .named .shift | .named .shift_l | .named .shift_r => true
  | _ => false

/-- `key == Key.alt or key == Key.alt_l or key == Key.alt_r`. -/
def isAltKey : Key → Bool
  | .named .alt | .named .alt_l | .named .alt_r => true
  | _ => false

/-! ### The event log -/

/-- pynput mouse buttons the source deals in (`Button.left`, `Button.right`,
and `Button.middle` standing for any other button). -/
inductive PyButton
  | left | right | middle
deriving DecidableEq, Repr

/-- Python `str(button)`. -/
def btnStr : PyButton → String
  | .left => "Button.left"
  | .right => "Button.right"
  | .middle => "Button.middle"

/-- A recorded action: one dict of the `actions` list, keyed by `'type'`
(automation.py lines 68-99, 156-160, 193-197). -/
inductive Action
  | mouse_move (x y : ℤ) (t : ℚ)
  | mouse_click (x y : ℤ) (button : String) (pressed : Bool) (t : ℚ)
  | mouse_scroll (x y dx dy : ℤ) (t : ℚ)
  | key_press (key : String) (t : ℚ)
  | key_release (key : String) (t : ℚ)
deriving DecidableEq, Repr

/-- The `'time'` field. -/
def Action.time : Action → ℚ
  | .mouse_move _ _ t => t
  | .mouse_click _ _ _ _ t => t
  | .mouse_scroll _ _ _ _ t => t
  | .key_press _ t => t
  | .key_release _ t => t

/-- The alt-matching test of the backward scan (automation.py line 141):
`'alt' in key_str.lower() or key_str in ['Key.alt', 'Key.alt_l', 'Key.alt_r']`. -/
def isAltStr (s : String) : Bool :=
  hasSub "alt".data (lowerStr s) ||
    (s = "Key.alt" || s = "Key.alt_l" || s = "Key.alt_r")

/-- Whether an action is a key press/release whose stored key string matches
the alt test (automation.py lines 139-141). -/
def isAltEvent : Action → Bool
  | .key_press k _ => isAltStr k
  | .key_release k _ => isAltStr k
  | _ => false

/-- The backward scan of automation.py lines 137-143: starting from the tail
of the list, remove the first (that is, overall most recent) key
press/release event matching the alt test, and stop. -/
def removeLastAlt : List Action → List Action
  | [] => []
  | a :: rest =>
    if rest.any isAltEvent then a :: removeLastAlt rest
    else if isAltEvent a then rest
    else a :: rest

/-! ### Recorder state and handlers -/

/-- The mutable fields of `ActionRecorder` relevant to event handling, plus
two fields modelling the environment: `kbStopped` records that a handler
returned `False` (pynput then stops the keyboard listener, so later key
events are not delivered), and `savedLog` records the argument of the
`auto_save_callback` invocation, if any. -/
structure RecState where
  actions : List Action
  recording : Bool
  shift_pressed : Bool
  alt_pressed : Bool
  auto_saved : Bool
  first_alt_tab_skipped : Bool
  skipping_first_alt_tab : Bool
  kbStopped : Bool
  savedLog : Option (List Action)
deriving DecidableEq, Repr

/-- State right after `start_recording` on a fresh `ActionRecorder`
(automation.py lines 18-29 and 31-50). -/
def initRec : RecState :=
  { actions := [], recording := true, shift_pressed := false,
    alt_pressed := false, auto_saved := false,
    first_alt_tab_skipped := false, skipping_first_alt_tab := false,
    kbStopped := false, savedLog := none }

/-- Modifier tracking on press (automation.py lines 123-127). -/
def trackMods (s : RecState) (k : Key) : RecState :=
  if isShiftKey k then { s with shift_pressed := true }
  else if isAltKey k then { s with alt_pressed := true }
  else s

/-- The part of `_on_key_press` after control-key interception and modifier
tracking (automation.py lines 129-160).  The source's first-Alt-Tab branch
is guarded by `key == Key.tab and alt and not shift` with an inner
`if not self.first_alt_tab_skipped`; when the inner test fails control falls
through to the Shift+Alt+Tab check, whose shift conjunct then fails,
reaching the append.  The flattened conditions below take the same branch in
every case. -/
def onKeyPressTail (s1 : RecState) (t : ℚ) (k : Key) : RecState :=
  if k = Key.named KName.tab ∧ s1.alt_pressed ∧ ¬ s1.shift_pressed
      ∧ ¬ s1.first_alt_tab_skipped then
    { s1 with first_alt_tab_skipped := true, skipping_first_alt_tab := true,
              actions := removeLastAlt s1.actions }
  else if k = Key.named KName.tab ∧ s1.shift_pressed ∧ s1.alt_pressed then s1
  else { s1 with actions := s1.actions ++ [Action.key_press (keyStr k) t] }

/-- `ActionRecorder._on_key_press` (automation.py lines 101-160). -/
def onKeyPress (s : RecState) (t : ℚ) (k : Key) : RecState :=
  if s.recording = false then s
  else if k = Key.named KName.f9 then
    { s with recording := false, savedLog := some s.actions,
             auto_saved := true, kbStopped := true }
  else if k = Key.named KName.esc then
    { s with kbStopped := true }
  else onKeyPressTail (trackMods s k) t k

/-- `ActionRecorder._on_key_release` (automation.py lines 162-197). -/
def onKeyRelease (s : RecState) (t : ℚ) (k : Key) : RecState :=
  if s.recording = false then s
  else if k = Key.named KName.tab ∧ s.alt_pressed ∧ ¬ s.shift_pressed
      ∧ s.skipping_first_alt_tab then s
  else if k = Key.named KName.tab ∧ s.shift_pressed ∧ s.alt_pressed then s
  else if isShiftKey k then
    { s with shift_pressed := false,
             actions := s.actions ++ [Action.key_release (keyStr k) t] }
  else if isAltKey k then
    if s.skipping_first_alt_tab then
      { s with alt_pressed := false, skipping_first_alt_tab := false }
    else
      { s with alt_pressed := false,
               actions := s.actions ++ [Action.key_release (keyStr k) t] }
  else { s with actions := s.actions ++ [Action.key_release (keyStr k) t] }

/-- `ActionRecorder._on_mouse_move` (lines 64-73). -/
def onMouseMove (s : RecState) (t : ℚ) (x y : ℤ) : RecState :=
  if s.recording then { s with actions := s.actions ++ [Action.mouse_move x y t] }
  else s

/-- `ActionRecorder._on_mouse_click` (lines 75-86). -/
def onMouseClick (s : RecState) (t : ℚ) (x y : ℤ) (b : PyButton) (p : Bool) :
    RecState :=
  if s.recording then
    { s with actions := s.actions ++ [Action.mouse_click x y (btnStr b) p t] }
  else s

/-- `ActionRecorder._on_mouse_scroll` (lines 88-99). -/
def onMouseScroll (s : RecState) (t : ℚ) (x y dx dy : ℤ) : RecState :=
  if s.recording then
    { s with actions := s.actions ++ [Action.mouse_scroll x y dx dy t] }
  else s

/-- A raw input notification delivered by the OS during a capture session. -/
inductive RawEv
  | kdown (k : Key) (t : ℚ)
  | kup (k : Key) (t : ℚ)
  | mmove (x y : ℤ) (t : ℚ)
  | mclick (x y : ℤ) (b : PyButton) (p : Bool) (t : ℚ)
  | mscroll (x y dx dy : ℤ) (t : ℚ)
deriving DecidableEq, Repr

/-- Deliver one raw notification.  Key events reach the recorder only while
the keyboard listener is alive; mouse events are on their own listener and
keep arriving. -/
def step (s : RecState) : RawEv → RecState
  | .kdown k t => if s.kbStopped then s else onKeyPress s t k
  | .kup k t => if s.kbStopped then s else onKeyRelease s t k
  | .mmove x y t => onMouseMove s t x y
  | .mclick x y b p t => onMouseClick s t x y b p
  | .mscroll x y dx dy t => onMouseScroll s t x y dx dy

/-- Run a capture session over a sequence of raw notifications. -/
def runEvents (s : RecState) (evs : List RawEv) : RecState :=
  evs.foldl step s

example :
    (runEvents initRec
      [RawEv.kdown (Key.named KName.alt) 0,
       RawEv.kdown (Key.named KName.tab) 1,
       RawEv.kup (Key.named KName.tab) 2,
       RawEv.kup (Key.named KName.alt) 3]).actions = [] := by decide

example :
    (runEvents initRec [RawEv.kup (Key.named KName.f9) 1]).actions
      = [Action.key_release "Key.f9" 1] := by decide

/-! ### Replay: key parsing and injection (`ActionReplayer._parse_key`,
`ActionReplayer._execute_action`) -/

/-- Result of `_parse_key`: a pynput `Key` member or a plain character
string (Python returns either; `None` is modelled by `Option`). -/
inductive PK
  | special (n : KName)
  | char (s : String)
deriving DecidableEq, Repr

/-- Simple association-list lookup standing for Python dict indexing /
`getattr`. -/
def tblLookup : List (String × KName) → String → Option KName
  | [], _ => none
  | (k, v) :: r, s => if s = k then some v else tblLookup r s

/-- The `special_keys` dict of `_parse_key` (automation.py lines 323-337). -/
def specialKeys : List (String × KName) :=
  [("Key.space", .space), ("Key.enter", .enter), ("Key.shift", .shift),
   ("Key.ctrl", .ctrl), ("Key.alt", .alt), ("Key.tab", .tab),
   ("Key.backspace", .backspace), ("Key.delete", .delete), ("Key.esc", .esc),
   ("Key.up", .up), ("Key.down", .down), ("Key.left", .left),
   ("Key.right", .right)]

/-- `getattr(Key, name)` over the named keys of the model: name table of
every `KName` member. -/
def keyAttrs : List (String × KName) :=
  [("f9", .f9), ("esc", .esc), ("shift", .shift), ("shift_l", .shift_l),
   ("shift_r", .shift_r), ("alt", .alt), ("alt_l", .alt_l), ("alt_r", .alt_r),
   ("tab", .tab), ("space", .space), ("enter", .enter), ("ctrl", .ctrl),
   ("backspace", .backspace), ("delete", .delete), ("up", .up),
   ("down", .down), ("left", .left), ("right", .right)]

/-- `key_str.split('.')` on character lists. -/
def splitDot : List Char → List (List Char)
  | [] => [[]]
  | c :: r =>
    if c = '.' then [] :: splitDot r
    else
      match splitDot r with
      | [] => [[c]]
      | g :: gs => (c :: g) :: gs

/-- `key_str.split('.')[1]` (only evaluated when a dot is present). -/
def splitSecond (s : String) : String :=
  ⟨((splitDot s.data).drop 1).headD []⟩

/-- `ActionReplayer._parse_key` (automation.py lines 320-349): look the
string up in `special_keys`; else, if it starts with `'Key.'`, resolve the
part after the dot via `getattr` (`None` on failure); else return the
string itself. -/
def parseKey (key_str : String) : Option PK :=
  match tblLookup specialKeys key_str with
  | some k => some (PK.special k)
  | none =>
    if startsWithStr key_str "Key." then
      match tblLookup keyAttrs (splitSecond key_str) with
      | some k => some (PK.special k)
      | none => none
    else some (PK.char key_str)

/-- `Button.left if 'left' in action['button'] else Button.right`
(automation.py line 300). -/
def parseButton (s : String) : PyButton :=
  if hasSub "left".data s.data then PyButton.left else PyButton.right

/-- Python truthiness of the `_parse_key` result at line 312/317
(`if key:`): `None` and the empty string are falsy. -/
def pkTruthy : Option PK → Bool
  | none => false
  | some (PK.special _) => true
  | some (PK.char s) => !s.data.isEmpty

/-- One primitive injection performed on the mouse/keyboard controllers. -/
inductive Inj
  | moveTo (x y : ℤ)
  | pressBtn (b : PyButton)
  | releaseBtn (b : PyButton)
  | scroll (dx dy : ℤ)
  | pressKey (k : PK)
  | releaseKey (k : PK)
deriving DecidableEq, Repr

/-- `ActionReplayer._execute_action` (automation.py lines 291-318), as the
list of controller calls it performs. -/
def executeAction (a : Action) : List Inj :=
  match a with
  | .mouse_move x y _ => [Inj.moveTo x y]
  | .mouse_click x y b p _ =>
    [Inj.moveTo x y,
     if p then Inj.pressBtn (parseButton b) else Inj.releaseBtn (parseButton b)]
  | .mouse_scroll x y dx dy _ => [Inj.moveTo x y, Inj.scroll dx dy]
  | .key_press k _ =>
    let pk := parseKey k
    if pkTruthy pk then [Inj.pressKey (pk.getD (PK.char ""))] else []
  | .key_release k _ =>
    let pk := parseKey k
    if pkTruthy pk then [Inj.releaseKey (pk.getD (PK.char ""))] else []

example : parseKey "a" = some (PK.char "a") := by decide
example : parseKey "Key.alt_l" = some (PK.special KName.alt_l) := by decide
example : parseKey "Key.f9" = some (PK.special KName.f9) := by decide
example : parseButton "Button.middle" = PyButton.right := by decide

/-! ### Replay: the scheduler loop (`ActionReplayer.replay`,
automation.py lines 223-289)

The concurrently-running `stop_replay` flag is modelled as a function from
read number to the value observed: the n-th time the loop reads the flag it
sees `flag n`.  The run produces a trace of the externally visible steps
(sleeps, flag checks, action injections). -/

/-- One externally visible step of the replay loop. -/
inductive RStep
  | sleep (d : ℚ)
  | check (b : Bool)
  | inject (a : Action)
deriving DecidableEq, Repr

/-- Upper bound on iterations of the chunked wait loop of lines 258-264:
the loop adds `min 0.1 (wait - waited)` per round while `waited < wait`. -/
def fuelFor (w : ℚ) : ℕ := (Int.ceil (w * 10)).toNat

/-- The chunked wait loop of lines 258-264:
`while waited < wait_time and not self.stop_replay: sleep(min(0.1, wait_time - waited))`.
Returns the trace produced and the next flag-read number. -/
def slicesGo (flag : ℕ → Bool) (w : ℚ) : ℚ → ℕ → ℕ → List RStep × ℕ
  | _, i, 0 => ([], i)
  | wd, i, fuel+1 =>
    if wd < w then
      if flag i then ([RStep.check true], i + 1)
      else
        let st := min (1/10 : ℚ) (w - wd)
        let r := slicesGo flag w (wd + st) (i + 1) fuel
        (RStep.check false :: RStep.sleep st :: r.1, r.2)
    else ([], i)

/-- The per-action loop of lines 249-271: for each action, check the stop
flag (line 250), wait out the gap in chunks, re-check the flag (line 266),
then inject.  Returns the trace, the next read number, and whether the loop
was exited by a stop check. -/
def innerRun (flag : ℕ → Bool) : List Action → ℕ → ℚ → List RStep × ℕ × Bool
  | [], i, _ => ([], i, false)
  | a :: rest, i, last =>
    if flag i then ([RStep.check true], i + 1, true)
    else
      let w := a.time - last
      let sw := if w > 0 then slicesGo flag w 0 (i + 1) (fuelFor w)
                else ([], i + 1)
      if flag sw.2 then
        (RStep.check false :: sw.1 ++ [RStep.check true], sw.2 + 1, true)
      else
        let r := innerRun flag rest (sw.2 + 1) a.time
        (RStep.check false :: sw.1 ++ RStep.check false :: RStep.inject a :: r.1,
         r.2.1, r.2.2)

/-- The iteration loop of lines 240-278: per iteration, check the flag
(line 241), run the actions, check again (line 273), and sleep the 0.5 s
inter-iteration pause unless this was the last iteration.  Arguments:
remaining iteration count, next read number, iterations fully completed so
far.  Returns trace, next read number, and completed count. -/
def outerRun (flag : ℕ → Bool) (acts : List Action) :
    ℕ → ℕ → ℕ → List RStep × ℕ × ℕ
  | 0, i, c => ([], i, c)
  | rem+1, i, c =>
    if flag i then ([RStep.check true], i + 1, c)
    else
      let r := innerRun flag acts (i + 1) 0
      let c1 := if r.2.2 then c else c + 1
      if flag r.2.1 then
        (RStep.check false :: r.1 ++ [RStep.check true], r.2.1 + 1, c1)
      else
        let pause := if rem > 0 then [RStep.sleep (1/2 : ℚ)] else []
        let rr := outerRun flag acts rem (r.2.1 + 1) c1
        (RStep.check false :: r.1 ++ RStep.check false :: (pause ++ rr.1),
         rr.2.1, rr.2.2)

/-- Result of a replay call: the trace of steps performed, the number of
fully completed iterations, and the Python return value (`replay` has no
return statement, so it is `None`). -/
structure ReplayRes where
  trace : List RStep
  completed : ℕ
  ret : Option ℕ
deriving DecidableEq, Repr

/-- `ActionReplayer.replay(actions, repeat_count, delay_before_start)`
(automation.py lines 223-289): one un-sliced `time.sleep(delay_before_start)`
(line 237), then the iteration loop (`range(repeat_count)` runs
`repeat_count.toNat` times), then fall off the end of the function. -/
def replayRun (flag : ℕ → Bool) (acts : List Action) (rep : ℤ) (d : ℚ) :
    ReplayRes :=
  let r := outerRun flag acts rep.toNat 0 0
  { trace := RStep.sleep d :: r.1, completed := r.2.2, ret := none }

example :
    (replayRun (fun _ => true) [Action.mouse_move 1 2 0] 1 3).trace
      = [RStep.sleep 3, RStep.check true] := by decide

example :
    (replayRun (fun _ => false) [] 1 0).completed = 1 ∧
    (replayRun (fun _ => false) [] 1 0).ret = none := by decide

example :
    replayRun (fun _ => false) [Action.mouse_move 1 2 0] (-1) 3
      = { trace := [RStep.sleep 3], completed := 0, ret := none } := by decide

example :
    (replayRun (fun _ => false) [Action.key_press "a" 0,
        Action.key_release "a" 0] 1 0).trace
      = [RStep.sleep 0,
         RStep.check false,
         RStep.check false, RStep.check false,
           RStep.inject (Action.key_press "a" 0),
         RStep.check false, RStep.check false,
           RStep.inject (Action.key_release "a" 0),
         RStep.check false] := by
  simp [replayRun, outerRun, innerRun, slicesGo, Action.time]

/-! ### Helper lemmas -/

lemma tblLookup_eq_none (tbl : List (String × KName)) (s : String)
    (h : ∀ p ∈ tbl, startsWithStr p.1 "Key." = true)
    (hs : startsWithStr s "Key." = false) : tblLookup tbl s = none := by
  induction tbl with
  | nil => rfl
  | cons p r ih =>
    obtain ⟨k, v⟩ := p
    by_cases hsk : s = k
    · have hk := h (k, v) (List.mem_cons_self _ _)
      dsimp only at hk
      rw [hsk, hk] at hs
      cases hs
    · simp only [tblLookup, if_neg hsk]
      exact ih fun q hq => h q (List.mem_cons_of_mem _ hq)

/-- A string that does not start with `'Key.'` misses the `special_keys`
table and reaches the final `else` of `_parse_key`. -/
lemma parseKey_char_of_not_special (s : String)
    (hs : startsWithStr s "Key." = false) : parseKey s = some (PK.char s) := by
  simp only [parseKey, tblLookup_eq_none specialKeys s (by decide) hs, hs,
    Bool.false_eq_true, if_false]

lemma startsWithStr_singleton (c : Char) :
    startsWithStr ⟨[c]⟩ "Key." = false := by
  have hd : "Key.".data = ['K', 'e', 'y', '.'] := rfl
  simp [startsWithStr, hd, List.isPrefixOf]

/-! ### Claim C3 (code bug): the stop-no-save key -/

/-- Claim C3 (code_bug): F9 ends the session, passes the accumulated log to
the auto-save callback, and nothing further is recorded; but ESC only stops
the keyboard listener (`return False`) and never sets `recording` to
`False`, so the session is not ended: a mouse event arriving after ESC is
still appended to the log (and the CLI wait loop polling
`recorder.recording` never observes termination). -/
theorem c3_esc_leaves_recording_true :
    ((runEvents initRec
        [RawEv.kdown (Key.named KName.esc) 1, RawEv.mmove 5 6 2]).recording
          = true ∧
     (runEvents initRec
        [RawEv.kdown (Key.named KName.esc) 1, RawEv.mmove 5 6 2]).actions
          = [Action.mouse_move 5 6 2] ∧
     (runEvents initRec
        [RawEv.kdown (Key.named KName.esc) 1, RawEv.mmove 5 6 2]).kbStopped
          = true) ∧
    ((runEvents initRec
        [RawEv.kdown (Key.named KName.f9) 1, RawEv.mmove 5 6 2]).recording
          = false ∧
     (runEvents initRec
        [RawEv.kdown (Key.named KName.f9) 1, RawEv.mmove 5 6 2]).actions
          = [] ∧
     (runEvents initRec
        [RawEv.kdown (Key.named KName.f9) 1, RawEv.mmove 5 6 2]).savedLog
          = some []) := by decide

/-! ### Claim C5: the return value of `replay` -/

/-- Claim C5 (corrected): `replay` has no return statement, so its return
value is `None` for every log, repeat count, startup delay and cancellation
schedule; the number of completed iterations is not reported to the
caller. -/
theorem c5_replay_returns_none (flag : ℕ → Bool) (acts : List Action)
    (rep : ℤ) (d : ℚ) : (replayRun flag acts rep d).ret = none := rfl

/-- Counterexample to claim C5 as stated: on an empty log with
`repeat_count = 1` and no cancellation, one iteration fully completes, yet
the value returned to the caller is `None`, not that count. -/
theorem c5_counterexample :
    (replayRun (fun _ => false) [] 1 0).completed = 1 ∧
    (replayRun (fun _ => false) [] 1 0).ret
      ≠ some ((replayRun (fun _ => false) [] 1 0).completed) := by decide

/-! ### Claim C9: negative repeat count / negative delay -/

/-- Claim C9 (corrected): `replay` validates nothing.  With a non-positive
repeat count the call is not rejected: the startup sleep still runs (the
delay value — negative or not — is handed to the sleep primitive unclamped),
zero iterations execute, nothing is injected, and the call finishes
normally returning `None`, with no explicit rejection signal. -/
theorem c9_negative_config (flag : ℕ → Bool) (acts : List Action) (rep : ℤ)
    (d : ℚ) (h : rep ≤ 0) :
    replayRun flag acts rep d
      = { trace := [RStep.sleep d], completed := 0, ret := none } := by
  simp [replayRun, Int.toNat_of_nonpos h, outerRun]

theorem c9_negative_config_witness :
    replayRun (fun _ => false) [Action.mouse_move 1 2 0] (-1) (-2)
      = { trace := [RStep.sleep (-2)], completed := 0, ret := none } :=
  c9_negative_config (fun _ => false) [Action.mouse_move 1 2 0] (-1) (-2)
    (by decide)

/-- Counterexample to claim C9 as stated: calling `replay` with
`repeat_count = -1` is not rejected before the session starts and produces
no explicit signal — the replay session runs (it performs the full startup
sleep) and then completes normally. -/
theorem c9_counterexample :
    replayRun (fun _ => false) [Action.mouse_move 1 2 0] (-1) 3
      = { trace := [RStep.sleep 3], completed := 0, ret := none } := by decide

/-! ### Claim C8: PointerButton replay -/

/-- Counterexample to claim C8 as stated: a recorded middle-button
(`Other`) press is replayed as a right-button press, so the injected button
does not equal the recorded one for the third variant. -/
theorem c8_counterexample :
    executeAction (Action.mouse_click 5 6 "Button.middle" true 0)
      = [Inj.moveTo 5 6, Inj.pressBtn PyButton.right] ∧
    PyButton.right ≠ PyButton.middle := by decide

/-- Claim C8 (corrected): replaying a `mouse_click` action moves the
pointer to `(x, y)` and then presses or releases a button there; the
injected button equals the recorded button for `Button.left` and
`Button.right`, while any other recorded button (modelled by
`Button.middle`) is injected as `Button.right`, because `_execute_action`
only tests `'left' in action['button']`. -/
theorem c8_pointer_button_replay (x y : ℤ) (p : Bool) (t : ℚ) :
    executeAction (Action.mouse_click x y (btnStr PyButton.left) p t)
      = [Inj.moveTo x y,
         if p then Inj.pressBtn PyButton.left
         else Inj.releaseBtn PyButton.left] ∧
    executeAction (Action.mouse_click x y (btnStr PyButton.right) p t)
      = [Inj.moveTo x y,
         if p then Inj.pressBtn PyButton.right
         else Inj.releaseBtn PyButton.right] ∧
    executeAction (Action.mouse_click x y (btnStr PyButton.middle) p t)
      = [Inj.moveTo x y,
         if p then Inj.pressBtn PyButton.right
         else Inj.releaseBtn PyButton.right] := by
  have h1 : parseButton (btnStr PyButton.left) = PyButton.left := by decide
  have h2 : parseButton (btnStr PyButton.right) = PyButton.right := by decide
  have h3 : parseButton (btnStr PyButton.middle) = PyButton.right := by decide
  refine ⟨?_, ?_, ?_⟩ <;> simp [executeAction, h1, h2, h3]

/-! ### Claim C10: character keys round-trip -/

/-- Claim C10 (confirmed): `_parse_key` returns any string not starting
with `'Key.'` unchanged; a character key recorded during capture is stored
as its printable character and replay injects exactly that character again
(for both press and release), so capture-then-replay is the identity on
character-key events. -/
theorem c10_char_key_roundtrip (s : String) (st : RecState) (c : Char)
    (t t' : ℚ) (hs : startsWithStr s "Key." = false)
    (hrec : st.recording = true) (hkb : st.kbStopped = false) :
    parseKey s = some (PK.char s) ∧
    (step st (RawEv.kdown (Key.char c) t)).actions
      = st.actions ++ [Action.key_press (keyStr (Key.char c)) t] ∧
    (step st (RawEv.kup (Key.char c) t')).actions
      = st.actions ++ [Action.key_release (keyStr (Key.char c)) t'] ∧
    executeAction (Action.key_press (keyStr (Key.char c)) t)
      = [Inj.pressKey (PK.char (keyStr (Key.char c)))] ∧
    executeAction (Action.key_release (keyStr (Key.char c)) t')
      = [Inj.releaseKey (PK.char (keyStr (Key.char c)))] := by
  have hparse : parseKey ⟨[c]⟩ = some (PK.char ⟨[c]⟩) :=
    parseKey_char_of_not_special _ (startsWithStr_singleton c)
  refine ⟨parseKey_char_of_not_special s hs, ?_, ?_, ?_, ?_⟩
  · simp [step, hkb, onKeyPress, hrec, onKeyPressTail, trackMods,
      isShiftKey, isAltKey]
  · simp [step, hkb, onKeyRelease, hrec, isShiftKey, isAltKey]
  · simp [executeAction, keyStr, hparse, pkTruthy]
  · simp [executeAction, keyStr, hparse, pkTruthy]

theorem c10_char_key_roundtrip_witness :
    parseKey "a" = some (PK.char "a") ∧
    (step initRec (RawEv.kdown (Key.char 'a') 0)).actions
      = initRec.actions ++ [Action.key_press (keyStr (Key.char 'a')) 0] ∧
    (step initRec (RawEv.kup (Key.char 'a') 1)).actions
      = initRec.actions ++ [Action.key_release (keyStr (Key.char 'a')) 1] ∧
    executeAction (Action.key_press (keyStr (Key.char 'a')) 0)
      = [Inj.pressKey (PK.char (keyStr (Key.char 'a')))] ∧
    executeAction (Action.key_release (keyStr (Key.char 'a')) 1)
      = [Inj.releaseKey (PK.char (keyStr (Key.char 'a')))] :=
  c10_char_key_roundtrip "a" initRec 'a' 0 1 (by decide) rfl rfl

/-! ### Claim C1: reserved control keys and the log -/

/-- An action that is a key press of one of the two reserved control
keys. -/
def isCtrlPressEv : Action → Bool
  | .key_press k _ => k == "Key.f9" || k == "Key.esc"
  | _ => false

/-- An action that is a key press or release of one of the two reserved
control keys (the predicate of claim C1 as stated). -/
def isCtrlEv : Action → Bool
  | .key_press k _ => k == "Key.f9" || k == "Key.esc"
  | .key_release k _ => k == "Key.f9" || k == "Key.esc"
  | _ => false

/-- The log holds no press of a reserved control key. -/
def noCtrlPress (l : List Action) : Bool := l.all fun a => !isCtrlPressEv a

lemma keyStr_ne_of_ne_named {k : Key} {n : KName}
    (h : k ≠ Key.named n) : keyStr k ≠ KName.str n := by
  cases k with
  | char c =>
    intro he
    have h2 : ([c] : List Char) = (KName.str n).data := congrArg String.data he
    have h3 : (1 : ℕ) = (KName.str n).data.length := congrArg List.length h2
    cases n <;> exact absurd h3 (by decide)
  | named m =>
    intro he
    apply h
    cases m <;> cases n <;> first | rfl | exact absurd he (by decide)

lemma noCtrlPress_append {l : List Action} {a : Action}
    (h : noCtrlPress l = true) (ha : isCtrlPressEv a = false) :
    noCtrlPress (l ++ [a]) = true := by
  simp only [noCtrlPress, List.all_append, List.all_cons, List.all_nil,
    Bool.and_eq_true, Bool.not_eq_eq_eq_not, Bool.not_true] at *
  exact ⟨h, ha, trivial⟩

lemma all_removeLastAlt {p : Action → Bool} {l : List Action}
    (h : l.all p = true) : (removeLastAlt l).all p = true := by
  induction l with
  | nil => exact h
  | cons a r ih =>
    simp only [List.all_cons, Bool.and_eq_true] at h
    simp only [removeLastAlt]
    split
    · simp [List.all_cons, h.1, ih h.2]
    · split
      · exact h.2
      · simp [List.all_cons, h.1, h.2]

lemma noCtrlPress_removeLastAlt {l : List Action}
    (h : noCtrlPress l = true) : noCtrlPress (removeLastAlt l) = true :=
  all_removeLastAlt h

lemma onKeyPress_noCtrlPress (s : RecState) (t : ℚ) (k : Key)
    (h : noCtrlPress s.actions = true) :
    noCtrlPress (onKeyPress s t k).actions = true := by
  unfold onKeyPress
  by_cases hr : s.recording = false
  · rw [if_pos hr]; exact h
  rw [if_neg hr]
  by_cases h9 : k = Key.named KName.f9
  · rw [if_pos h9]; exact h
  rw [if_neg h9]
  by_cases he : k = Key.named KName.esc
  · rw [if_pos he]; exact h
  rw [if_neg he]
  have hctrl : isCtrlPressEv (Action.key_press (keyStr k) t) = false := by
    have hf9 : keyStr k ≠ "Key.f9" := keyStr_ne_of_ne_named h9
    have hesc : keyStr k ≠ "Key.esc" := keyStr_ne_of_ne_named he
    simp [isCtrlPressEv, hf9, hesc]
  have hma : (trackMods s k).actions = s.actions := by
    unfold trackMods; split_ifs <;> rfl
  have h' : noCtrlPress (trackMods s k).actions = true := hma ▸ h
  unfold onKeyPressTail
  split_ifs
  · exact noCtrlPress_removeLastAlt h'
  · exact h'
  · exact noCtrlPress_append h' hctrl

lemma onKeyRelease_noCtrlPress (s : RecState) (t : ℚ) (k : Key)
    (h : noCtrlPress s.actions = true) :
    noCtrlPress (onKeyRelease s t k).actions = true := by
  unfold onKeyRelease
  split_ifs <;>
    first
      | exact h
      | exact noCtrlPress_append h (by simp [isCtrlPressEv])

lemma step_noCtrlPress (s : RecState) (e : RawEv)
    (h : noCtrlPress s.actions = true) :
    noCtrlPress (step s e).actions = true := by
  cases e with
  | kdown k t =>
    simp only [step]
    split_ifs
    · exact h
    · exact onKeyPress_noCtrlPress s t k h
  | kup k t =>
    simp only [step]
    split_ifs
    · exact h
    · exact onKeyRelease_noCtrlPress s t k h
  | mmove x y t =>
    simp only [step, onMouseMove]
    split_ifs
    · exact noCtrlPress_append h (by simp [isCtrlPressEv])
    · exact h
  | mclick x y b p t =>
    simp only [step, onMouseClick]
    split_ifs
    · exact noCtrlPress_append h (by simp [isCtrlPressEv])
    · exact h
  | mscroll x y dx dy t =>
    simp only [step, onMouseScroll]
    split_ifs
    · exact noCtrlPress_append h (by simp [isCtrlPressEv])
    · exact h

/-- Counterexample to claim C1 as stated: releases of the reserved keys are
not intercepted (only presses are), so a raw F9 release arriving during a
session is appended to the log as `key_release 'Key.f9'`. -/
theorem c1_counterexample :
    (runEvents initRec [RawEv.kup (Key.named KName.f9) 1]).actions
      = [Action.key_release "Key.f9" 1] ∧
    ((runEvents initRec [RawEv.kup (Key.named KName.f9) 1]).actions.all
      fun a => !isCtrlEv a) = false := by decide

/-- Claim C1 (corrected): for every capture session and every sequence of
raw input notifications, the event log never contains a *press* event for
either reserved control key (F9 or ESC) — the press handler intercepts both
before recording — and this absence is an invariant preserved by every
handler.  (Releases of the reserved keys are not intercepted; see the
counterexample.) -/
theorem c1_no_control_press_invariant (s : RecState) (evs : List RawEv)
    (h : noCtrlPress s.actions = true) :
    noCtrlPress (runEvents s evs).actions = true := by
  induction evs generalizing s with
  | nil => exact h
  | cons e r ih => exact ih (step s e) (step_noCtrlPress s e h)

theorem c1_no_control_press_invariant_witness :
    noCtrlPress (runEvents initRec
      [RawEv.kdown (Key.char 'a') 0, RawEv.kdown (Key.named KName.f9) 1,
       RawEv.kup (Key.named KName.alt) 2]).actions = true :=
  c1_no_control_press_invariant initRec _ (by decide)

/-! ### Claim C2: first Alt-Tab suppression -/

lemma any_isAltEvent_eq_false {lb : List Action}
    (hlb : lb.all (fun x => !isAltEvent x) = true) :
    lb.any isAltEvent = false := by
  cases hany : lb.any isAltEvent with
  | false => rfl
  | true =>
    obtain ⟨x, hx, hxalt⟩ := List.any_eq_true.mp hany
    have := List.all_eq_true.mp hlb x hx
    rw [hxalt] at this
    cases this

/-- Semantics of the backward scan: removing the most recent alt event
means deleting the element after which only non-alt events follow. -/
lemma removeLastAlt_split (la lb : List Action) (a : Action)
    (ha : isAltEvent a = true)
    (hlb : lb.all (fun x => !isAltEvent x) = true) :
    removeLastAlt (la ++ a :: lb) = la ++ lb := by
  induction la with
  | nil =>
    simp only [List.nil_append, removeLastAlt, any_isAltEvent_eq_false hlb,
      ha, if_true]
    simp
  | cons x la' ih =>
    have hany : (la' ++ a :: lb).any isAltEvent = true :=
      List.any_eq_true.mpr ⟨a, by simp, ha⟩
    simp only [List.cons_append, removeLastAlt, List.append_eq, hany,
      if_true, ih]

/-- Claim C2 (confirmed): on the first Tab press while alt is tracked held
and shift is not, the recorder sets both suppression flags, replaces the
log by the result of the backward alt-scan (which deletes exactly the most
recent alt press/release), and does not append the Tab press; the Tab
release under the same modifier condition while the flag is set is
discarded; the following alt release while the flag is set is discarded and
clears the flag; so when the suppressed combination closes, the log equals
the pre-combination log with its most recent alt event deleted — no
dangling alt press remains. -/
theorem c2_first_alt_tab_suppression (s : RecState) (t1 t2 t3 : ℚ)
    (la lb : List Action) (a : Action)
    (hrec : s.recording = true) (hkb : s.kbStopped = false)
    (halt : s.alt_pressed = true) (hshift : s.shift_pressed = false)
    (hfirst : s.first_alt_tab_skipped = false)
    (ha : isAltEvent a = true)
    (hlb : lb.all (fun x => !isAltEvent x) = true) :
    (step s (RawEv.kdown (Key.named KName.tab) t1)).first_alt_tab_skipped
        = true ∧
    (step s (RawEv.kdown (Key.named KName.tab) t1)).skipping_first_alt_tab
        = true ∧
    (step s (RawEv.kdown (Key.named KName.tab) t1)).actions
        = removeLastAlt s.actions ∧
    removeLastAlt (la ++ a :: lb) = la ++ lb ∧
    step (step s (RawEv.kdown (Key.named KName.tab) t1))
        (RawEv.kup (Key.named KName.tab) t2)
      = step s (RawEv.kdown (Key.named KName.tab) t1) ∧
    (step (step (step s (RawEv.kdown (Key.named KName.tab) t1))
        (RawEv.kup (Key.named KName.tab) t2))
        (RawEv.kup (Key.named KName.alt) t3)).actions
      = removeLastAlt s.actions ∧
    (step (step (step s (RawEv.kdown (Key.named KName.tab) t1))
        (RawEv.kup (Key.named KName.tab) t2))
        (RawEv.kup (Key.named KName.alt) t3)).skipping_first_alt_tab
      = false ∧
    (step (step (step s (RawEv.kdown (Key.named KName.tab) t1))
        (RawEv.kup (Key.named KName.tab) t2))
        (RawEv.kup (Key.named KName.alt) t3)).alt_pressed
      = false ∧
    (s.actions = la ++ a :: lb →
      (step (step (step s (RawEv.kdown (Key.named KName.tab) t1))
          (RawEv.kup (Key.named KName.tab) t2))
          (RawEv.kup (Key.named KName.alt) t3)).actions
        = la ++ lb) := by
  have hs1 : step s (RawEv.kdown (Key.named KName.tab) t1)
      = { s with first_alt_tab_skipped := true,
                 skipping_first_alt_tab := true,
                 actions := removeLastAlt s.actions } := by
    simp [step, hkb, onKeyPress, hrec, onKeyPressTail, trackMods,
      isShiftKey, isAltKey, halt, hshift, hfirst]
  have hs2 : step (step s (RawEv.kdown (Key.named KName.tab) t1))
      (RawEv.kup (Key.named KName.tab) t2)
      = step s (RawEv.kdown (Key.named KName.tab) t1) := by
    rw [hs1]
    simp [step, hkb, onKeyRelease, hrec, halt, hshift]
  have hs3 : step (step (step s (RawEv.kdown (Key.named KName.tab) t1))
      (RawEv.kup (Key.named KName.tab) t2))
      (RawEv.kup (Key.named KName.alt) t3)
      = { s with first_alt_tab_skipped := true,
                 skipping_first_alt_tab := false,
                 alt_pressed := false,
                 actions := removeLastAlt s.actions } := by
    rw [hs2, hs1]
    simp [step, hkb, onKeyRelease, hrec, halt, hshift, isShiftKey, isAltKey]
  have hsplit := removeLastAlt_split la lb a ha hlb
  refine ⟨by rw [hs1], by rw [hs1], by rw [hs1], hsplit, hs2, by rw [hs3],
    by rw [hs3], by rw [hs3], ?_⟩
  intro hact
  rw [hs3]
  simpa [hact] using hsplit

/-- Concrete session for the witness of C2: alt is held and its press is
the most recent log entry. -/
def c2WitState : RecState :=
  { initRec with alt_pressed := true,
                 actions := [Action.key_press "Key.alt" 0] }

theorem c2_first_alt_tab_suppression_witness :
    (step c2WitState (RawEv.kdown (Key.named KName.tab) 1)).first_alt_tab_skipped
        = true ∧
    (step c2WitState (RawEv.kdown (Key.named KName.tab) 1)).skipping_first_alt_tab
        = true ∧
    (step c2WitState (RawEv.kdown (Key.named KName.tab) 1)).actions
        = removeLastAlt c2WitState.actions ∧
    removeLastAlt ([] ++ Action.key_press "Key.alt" 0 :: []) = [] ++ [] ∧
    step (step c2WitState (RawEv.kdown (Key.named KName.tab) 1))
        (RawEv.kup (Key.named KName.tab) 2)
      = step c2WitState (RawEv.kdown (Key.named KName.tab) 1) ∧
    (step (step (step c2WitState (RawEv.kdown (Key.named KName.tab) 1))
        (RawEv.kup (Key.named KName.tab) 2))
        (RawEv.kup (Key.named KName.alt) 3)).actions
      = removeLastAlt c2WitState.actions ∧
    (step (step (step c2WitState (RawEv.kdown (Key.named KName.tab) 1))
        (RawEv.kup (Key.named KName.tab) 2))
        (RawEv.kup (Key.named KName.alt) 3)).skipping_first_alt_tab
      = false ∧
    (step (step (step c2WitState (RawEv.kdown (Key.named KName.tab) 1))
        (RawEv.kup (Key.named KName.tab) 2))
        (RawEv.kup (Key.named KName.alt) 3)).alt_pressed
      = false ∧
    (c2WitState.actions = [] ++ Action.key_press "Key.alt" 0 :: [] →
      (step (step (step c2WitState (RawEv.kdown (Key.named KName.tab) 1))
          (RawEv.kup (Key.named KName.tab) 2))
          (RawEv.kup (Key.named KName.alt) 3)).actions
        = [] ++ []) :=
  c2_first_alt_tab_suppression c2WitState 1 2 3 [] []
    (Action.key_press "Key.alt" 0) rfl rfl rfl rfl rfl (by decide) (by decide)

/-! ### Claim C6: the second Alt-Tab sequence -/

/-- Counterexample to claim C6 as stated: when a second Tab press/release
happens inside the same alt hold as the first (alt never released in
between), the suppression flag is still set, so the second sequence's Tab
release is discarded: the whole session records only the second Tab press.
The second Alt-Tab sequence is therefore not present unmodified. -/
theorem c6_counterexample :
    (runEvents initRec
      [RawEv.kdown (Key.named KName.alt) 0,
       RawEv.kdown (Key.named KName.tab) 1,
       RawEv.kup (Key.named KName.tab) 2,
       RawEv.kdown (Key.named KName.tab) 3,
       RawEv.kup (Key.named KName.tab) 4,
       RawEv.kup (Key.named KName.alt) 5]).actions
      = [Action.key_press "Key.tab" 3] ∧
    Action.key_release "Key.tab" 4 ∉
      (runEvents initRec
        [RawEv.kdown (Key.named KName.alt) 0,
         RawEv.kdown (Key.named KName.tab) 1,
         RawEv.kup (Key.named KName.tab) 2,
         RawEv.kdown (Key.named KName.tab) 3,
         RawEv.kup (Key.named KName.tab) 4,
         RawEv.kup (Key.named KName.alt) 5]).actions := by decide

/-- Claim C6 (corrected): once the first suppressed combination has closed
(alt released, clearing `skipping_first_alt_tab`, with
`first_alt_tab_skipped` latched), a following Alt-Tab sequence is recorded
in full: alt press, Tab press, Tab release and alt release are all appended
unmodified.  (If instead the second Tab press/release occurs inside the
same alt hold as the first, its release is discarded — see the
counterexample.) -/
theorem c6_second_alt_tab_after_close (s : RecState) (t1 t2 t3 t4 : ℚ)
    (hrec : s.recording = true) (hkb : s.kbStopped = false)
    (hshift : s.shift_pressed = false)
    (hskip : s.skipping_first_alt_tab = false)
    (hfirst : s.first_alt_tab_skipped = true) :
    (runEvents s
      [RawEv.kdown (Key.named KName.alt) t1,
       RawEv.kdown (Key.named KName.tab) t2,
       RawEv.kup (Key.named KName.tab) t3,
       RawEv.kup (Key.named KName.alt) t4]).actions
      = s.actions ++
        [Action.key_press "Key.alt" t1, Action.key_press "Key.tab" t2,
         Action.key_release "Key.tab" t3, Action.key_release "Key.alt" t4] := by
  have h1 : step s (RawEv.kdown (Key.named KName.alt) t1)
      = { s with alt_pressed := true,
                 actions := s.actions ++ [Action.key_press "Key.alt" t1] } := by
    simp [step, hkb, onKeyPress, hrec, onKeyPressTail, trackMods,
      isShiftKey, isAltKey, keyStr, KName.str]
  have h2 : step (step s (RawEv.kdown (Key.named KName.alt) t1))
      (RawEv.kdown (Key.named KName.tab) t2)
      = { s with alt_pressed := true,
                 actions := s.actions ++ [Action.key_press "Key.alt" t1,
                   Action.key_press "Key.tab" t2] } := by
    rw [h1]
    simp [step, hkb, onKeyPress, hrec, onKeyPressTail, trackMods,
      isShiftKey, isAltKey, hshift, hfirst, keyStr, KName.str]
  have h3 : step (step (step s (RawEv.kdown (Key.named KName.alt) t1))
      (RawEv.kdown (Key.named KName.tab) t2))
      (RawEv.kup (Key.named KName.tab) t3)
      = { s with alt_pressed := true,
                 actions := s.actions ++ [Action.key_press "Key.alt" t1,
                   Action.key_press "Key.tab" t2,
                   Action.key_release "Key.tab" t3] } := by
    rw [h2]
    simp [step, hkb, onKeyRelease, hrec, hshift, hskip,
      isShiftKey, isAltKey, keyStr, KName.str]
  show (step (step (step (step s (RawEv.kdown (Key.named KName.alt) t1))
      (RawEv.kdown (Key.named KName.tab) t2))
      (RawEv.kup (Key.named KName.tab) t3))
      (RawEv.kup (Key.named KName.alt) t4)).actions = _
  rw [h3]
  simp [step, hkb, onKeyRelease, hrec, hshift, hskip,
    isShiftKey, isAltKey, keyStr, KName.str]

/-- Concrete session for the witness of C6: the first combination has
already been suppressed and closed. -/
def c6WitState : RecState := { initRec with first_alt_tab_skipped := true }

theorem c6_second_alt_tab_after_close_witness :
    (runEvents c6WitState
      [RawEv.kdown (Key.named KName.alt) 1,
       RawEv.kdown (Key.named KName.tab) 2,
       RawEv.kup (Key.named KName.tab) 3,
       RawEv.kup (Key.named KName.alt) 4]).actions
      = c6WitState.actions ++
        [Action.key_press "Key.alt" 1, Action.key_press "Key.tab" 2,
         Action.key_release "Key.tab" 3, Action.key_release "Key.alt" 4] :=
  c6_second_alt_tab_after_close c6WitState 1 2 3 4 rfl rfl rfl rfl rfl

/-! ### Claim C7: Shift+Alt+Tab suppression -/

lemma step_tab_press_id (s : RecState) (t : ℚ)
    (h1 : s.shift_pressed = true) (h2 : s.alt_pressed = true) :
    step s (RawEv.kdown (Key.named KName.tab) t) = s := by
  simp [step, onKeyPress, onKeyPressTail, trackMods, isShiftKey, isAltKey,
    h1, h2]

lemma step_tab_release_id (s : RecState) (t : ℚ)
    (h1 : s.shift_pressed = true) (h2 : s.alt_pressed = true) :
    step s (RawEv.kup (Key.named KName.tab) t) = s := by
  simp [step, onKeyRelease, h1, h2]

lemma runEvents_append (s : RecState) (l1 l2 : List RawEv) :
    runEvents s (l1 ++ l2) = runEvents (runEvents s l1) l2 :=
  List.foldl_append step s l1 l2

/-- Claim C7 (confirmed): a Tab press or release arriving while both shift
and alt are tracked held leaves the recorder state completely unchanged
(nothing is appended, no flag moves), in every session state — even
mid-suppression — so such Tab events are absent from the resulting log:
deleting them from the raw stream yields the same session result. -/
theorem c7_shift_alt_tab_discarded (s s' : RecState) (t t' u u' : ℚ)
    (pre post : List RawEv)
    (h1 : s.shift_pressed = true) (h2 : s.alt_pressed = true)
    (h3 : (runEvents s' pre).shift_pressed = true)
    (h4 : (runEvents s' pre).alt_pressed = true) :
    step s (RawEv.kdown (Key.named KName.tab) t) = s ∧
    step s (RawEv.kup (Key.named KName.tab) t') = s ∧
    runEvents s' (pre ++ RawEv.kdown (Key.named KName.tab) u :: post)
      = runEvents s' (pre ++ post) ∧
    runEvents s' (pre ++ RawEv.kup (Key.named KName.tab) u' :: post)
      = runEvents s' (pre ++ post) := by
  refine ⟨step_tab_press_id s t h1 h2, step_tab_release_id s t' h1 h2, ?_, ?_⟩
  · rw [runEvents_append, runEvents_append]
    show runEvents (step (runEvents s' pre) _) post = _
    rw [step_tab_press_id _ u h3 h4]
  · rw [runEvents_append, runEvents_append]
    show runEvents (step (runEvents s' pre) _) post = _
    rw [step_tab_release_id _ u' h3 h4]

/-- Concrete session state for the witness of C7: both modifiers tracked
held. -/
def c7WitState : RecState :=
  { initRec with shift_pressed := true, alt_pressed := true }

theorem c7_shift_alt_tab_discarded_witness :
    step c7WitState (RawEv.kdown (Key.named KName.tab) 0) = c7WitState ∧
    step c7WitState (RawEv.kup (Key.named KName.tab) 1) = c7WitState ∧
    runEvents c7WitState ([] ++ RawEv.kdown (Key.named KName.tab) 2 :: [])
      = runEvents c7WitState ([] ++ []) ∧
    runEvents c7WitState ([] ++ RawEv.kup (Key.named KName.tab) 3 :: [])
      = runEvents c7WitState ([] ++ []) :=
  c7_shift_alt_tab_discarded c7WitState c7WitState 0 1 2 3 [] []
    rfl rfl rfl rfl

/-! ### Claim C4: cancellation points of the replay loop -/

/-- No injection step occurs in the trace. -/
def noInjectB : List RStep → Bool
  | [] => true
  | RStep.inject _ :: _ => false
  | _ :: r => noInjectB r

/-- No flag check in the trace ever observed `true`. -/
def noCheckTrueB : List RStep → Bool
  | [] => true
  | RStep.check true :: _ => false
  | _ :: r => noCheckTrueB r

/-- From the first check that observes `true` onward, the trace contains no
injection: once the loop sees the stop flag, nothing further is injected. -/
def noLaterInject : List RStep → Bool
  | [] => true
  | RStep.check true :: r => noInjectB r
  | _ :: r => noLaterInject r

/-- Every sleep slice of the chunked wait is immediately preceded by a flag
check. -/
def sleepsPreceded : List RStep → Bool
  | [] => true
  | RStep.check _ :: RStep.sleep _ :: r => sleepsPreceded r
  | RStep.sleep _ :: _ => false
  | _ :: r => sleepsPreceded r

/-- The stop flag is monotone: once a read observes `true`, all later reads
do (the source only ever sets `stop_replay`, never clears it, during a
replay call). -/
def MonoFlag (flag : ℕ → Bool) : Prop :=
  ∀ i j, i ≤ j → flag i = true → flag j = true

lemma monoFlag_false {flag : ℕ → Bool} (hm : MonoFlag flag) {i j : ℕ}
    (hij : i ≤ j) (hj : flag j = false) : flag i = false := by
  cases hfi : flag i with
  | false => rfl
  | true => rw [hm i j hij hfi] at hj; cases hj

lemma noInjectB_append (l1 l2 : List RStep) :
    noInjectB (l1 ++ l2) = (noInjectB l1 && noInjectB l2) := by
  induction l1 with
  | nil => simp [noInjectB]
  | cons x r ih => cases x <;> simp [noInjectB, ih]

lemma noCheckTrueB_append (l1 l2 : List RStep) :
    noCheckTrueB (l1 ++ l2) = (noCheckTrueB l1 && noCheckTrueB l2) := by
  induction l1 with
  | nil => simp [noCheckTrueB]
  | cons x r ih =>
    cases x with
    | sleep d => simpa [noCheckTrueB] using ih
    | inject a => simpa [noCheckTrueB] using ih
    | check b => cases b <;> simp [noCheckTrueB, ih]

lemma noLaterInject_of_noInjectB {l : List RStep} (h : noInjectB l = true) :
    noLaterInject l = true := by
  induction l with
  | nil => rfl
  | cons x r ih =>
    cases x with
    | sleep d => exact ih (by simpa [noInjectB] using h)
    | inject a => simp [noInjectB] at h
    | check b =>
      cases b with
      | false => exact ih (by simpa [noInjectB] using h)
      | true => simpa [noInjectB, noLaterInject] using h

lemma noLaterInject_append_nct (l1 l2 : List RStep)
    (h : noCheckTrueB l1 = true) :
    noLaterInject (l1 ++ l2) = noLaterInject l2 := by
  induction l1 with
  | nil => rfl
  | cons x r ih =>
    cases x with
    | sleep d =>
      simpa [noLaterInject] using ih (by simpa [noCheckTrueB] using h)
    | inject a =>
      simpa [noLaterInject] using ih (by simpa [noCheckTrueB] using h)
    | check b =>
      cases b with
      | false =>
        simpa [noLaterInject] using ih (by simpa [noCheckTrueB] using h)
      | true => simp [noCheckTrueB] at h

lemma noLaterInject_append_noInj {l1 l2 : List RStep}
    (h1 : noLaterInject l1 = true) (h2 : noInjectB l2 = true) :
    noLaterInject (l1 ++ l2) = true := by
  induction l1 with
  | nil => exact noLaterInject_of_noInjectB h2
  | cons x r ih =>
    cases x with
    | sleep d => exact ih (by simpa [noLaterInject] using h1)
    | inject a => exact ih (by simpa [noLaterInject] using h1)
    | check b =>
      cases b with
      | false => exact ih (by simpa [noLaterInject] using h1)
      | true =>
        show noInjectB (r ++ l2) = true
        rw [noInjectB_append]
        have hr : noInjectB r = true := by
          simpa [noLaterInject] using h1
        simp [hr, h2]

lemma slicesGo_idx_le (flag : ℕ → Bool) (w : ℚ) :
    ∀ (fuel : ℕ) (wd : ℚ) (i : ℕ), i ≤ (slicesGo flag w wd i fuel).2 := by
  intro fuel
  induction fuel with
  | zero => intro wd i; simp [slicesGo]
  | succ n ih =>
    intro wd i
    simp only [slicesGo]
    split_ifs with hw hf
    · exact Nat.le_succ i
    · exact le_trans (Nat.le_succ i) (ih _ (i + 1))
    · exact le_refl i

lemma slicesGo_noInjectB (flag : ℕ → Bool) (w : ℚ) :
    ∀ (fuel : ℕ) (wd : ℚ) (i : ℕ),
      noInjectB (slicesGo flag w wd i fuel).1 = true := by
  intro fuel
  induction fuel with
  | zero => intro wd i; simp [slicesGo, noInjectB]
  | succ n ih =>
    intro wd i
    simp only [slicesGo]
    split_ifs with hw hf
    · rfl
    · simpa [noInjectB] using ih _ (i + 1)
    · rfl

lemma slicesGo_sleepsPreceded (flag : ℕ → Bool) (w : ℚ) :
    ∀ (fuel : ℕ) (wd : ℚ) (i : ℕ),
      sleepsPreceded (slicesGo flag w wd i fuel).1 = true := by
  intro fuel
  induction fuel with
  | zero => intro wd i; simp [slicesGo, sleepsPreceded]
  | succ n ih =>
    intro wd i
    simp only [slicesGo]
    split_ifs with hw hf
    · rfl
    · simpa [sleepsPreceded] using ih _ (i + 1)
    · rfl

lemma slicesGo_nct {flag : ℕ → Bool} (hm : MonoFlag flag) (w : ℚ) :
    ∀ (fuel : ℕ) (wd : ℚ) (i : ℕ),
      flag (slicesGo flag w wd i fuel).2 = false →
      noCheckTrueB (slicesGo flag w wd i fuel).1 = true := by
  intro fuel
  induction fuel with
  | zero => intro wd i _; rfl
  | succ n ih =>
    intro wd i hend
    simp only [slicesGo] at hend ⊢
    split_ifs at hend ⊢ with hw hf
    · rw [hm i (i + 1) (Nat.le_succ i) hf] at hend
      cases hend
    · simpa [noCheckTrueB] using ih _ (i + 1) hend
    · rfl

lemma innerRun_facts {flag : ℕ → Bool} (hm : MonoFlag flag) :
    ∀ (as : List Action) (i : ℕ) (last : ℚ),
      i ≤ (innerRun flag as i last).2.1 ∧
      noLaterInject (innerRun flag as i last).1 = true ∧
      (flag (innerRun flag as i last).2.1 = false →
        noCheckTrueB (innerRun flag as i last).1 = true) := by
  intro as
  induction as with
  | nil =>
    intro i last
    exact ⟨le_refl i, rfl, fun _ => rfl⟩
  | cons a rest ih =>
    intro i last
    by_cases h0 : flag i = true
    · have hred : innerRun flag (a :: rest) i last
          = ([RStep.check true], i + 1, true) := by
        simp only [innerRun, h0, if_true]
      rw [hred]
      refine ⟨Nat.le_succ i, rfl, fun hf => ?_⟩
      rw [hm i (i + 1) (Nat.le_succ i) h0] at hf
      cases hf
    · have hsw_idx : i + 1 ≤ (if a.time - last > 0 then
          slicesGo flag (a.time - last) 0 (i + 1) (fuelFor (a.time - last))
          else ([], i + 1)).2 := by
        split_ifs with hw
        · exact slicesGo_idx_le flag _ _ 0 (i + 1)
        · exact le_refl (i + 1)
      have hsw_noInj : noInjectB (if a.time - last > 0 then
          slicesGo flag (a.time - last) 0 (i + 1) (fuelFor (a.time - last))
          else ([], i + 1)).1 = true := by
        split_ifs with hw
        · exact slicesGo_noInjectB flag _ _ 0 (i + 1)
        · rfl
      have hsw_nct : flag (if a.time - last > 0 then
          slicesGo flag (a.time - last) 0 (i + 1) (fuelFor (a.time - last))
          else ([], i + 1)).2 = false →
          noCheckTrueB (if a.time - last > 0 then
            slicesGo flag (a.time - last) 0 (i + 1) (fuelFor (a.time - last))
            else ([], i + 1)).1 = true := by
        split_ifs with hw
        · exact slicesGo_nct hm _ _ 0 (i + 1)
        · intro _; rfl
      set sw := (if a.time - last > 0 then
        slicesGo flag (a.time - last) 0 (i + 1) (fuelFor (a.time - last))
        else ([], i + 1)) with hsw
      by_cases h1 : flag sw.2 = true
      · have hred : innerRun flag (a :: rest) i last
            = (RStep.check false :: sw.1 ++ [RStep.check true],
               sw.2 + 1, true) := by
          simp only [innerRun, h0, if_false, Bool.false_eq_true, ← hsw, h1,
            if_true]
        rw [hred]
        refine ⟨le_trans (le_trans (Nat.le_succ i) hsw_idx) (Nat.le_succ _),
          ?_, fun hf => ?_⟩
        · show noLaterInject (RStep.check false :: (sw.1 ++ [RStep.check true]))
            = true
          have : noLaterInject (sw.1 ++ [RStep.check true]) = true :=
            noLaterInject_append_noInj (noLaterInject_of_noInjectB hsw_noInj)
              rfl
          simpa [noLaterInject] using this
        · rw [hm sw.2 (sw.2 + 1) (Nat.le_succ _) h1] at hf
          cases hf
      · have h1f : flag sw.2 = false := by
          cases hfv : flag sw.2 with
          | false => rfl
          | true => exact absurd hfv h1
        obtain ⟨ihIdx, ihNli, ihNct⟩ := ih (sw.2 + 1) a.time
        have hred : innerRun flag (a :: rest) i last
            = (RStep.check false :: sw.1 ++ RStep.check false ::
                 RStep.inject a :: (innerRun flag rest (sw.2 + 1) a.time).1,
               (innerRun flag rest (sw.2 + 1) a.time).2.1,
               (innerRun flag rest (sw.2 + 1) a.time).2.2) := by
          simp only [innerRun, h0, if_false, Bool.false_eq_true, ← hsw, h1,
            if_true]
        rw [hred]
        have hnct_sw : noCheckTrueB sw.1 = true := hsw_nct h1f
        refine ⟨le_trans (le_trans (Nat.le_succ i) hsw_idx)
            (le_trans (Nat.le_succ _) ihIdx), ?_, fun hf => ?_⟩
        · show noLaterInject (RStep.check false :: (sw.1 ++ RStep.check false ::
              RStep.inject a :: (innerRun flag rest (sw.2 + 1) a.time).1)) = true
          have := noLaterInject_append_nct sw.1
            (RStep.check false :: RStep.inject a ::
              (innerRun flag rest (sw.2 + 1) a.time).1) hnct_sw
          simpa [noLaterInject, this] using ihNli
        · show noCheckTrueB (RStep.check false :: (sw.1 ++ RStep.check false ::
              RStep.inject a :: (innerRun flag rest (sw.2 + 1) a.time).1)) = true
          have hfsw : flag sw.2 = false :=
            monoFlag_false hm (le_trans (Nat.le_succ _) ihIdx) hf
          simp [noCheckTrueB, noCheckTrueB_append, hnct_sw, ihNct hf]

lemma outerRun_nli {flag : ℕ → Bool} (hm : MonoFlag flag)
    (acts : List Action) :
    ∀ (rem i c : ℕ), noLaterInject (outerRun flag acts rem i c).1 = true := by
  intro rem
  induction rem with
  | zero => intro i c; rfl
  | succ n ih =>
    intro i c
    by_cases h0 : flag i = true
    · have hred : outerRun flag acts (n + 1) i c
          = ([RStep.check true], i + 1, c) := by
        simp only [outerRun, h0, if_true]
      rw [hred]
      rfl
    · obtain ⟨ihIdx, ihNli, ihNct⟩ :=
        innerRun_facts hm acts (i + 1) 0
      by_cases h1 : flag (innerRun flag acts (i + 1) 0).2.1 = true
      · have hred : outerRun flag acts (n + 1) i c
            = (RStep.check false :: (innerRun flag acts (i + 1) 0).1
                 ++ [RStep.check true],
               (innerRun flag acts (i + 1) 0).2.1 + 1,
               if (innerRun flag acts (i + 1) 0).2.2 then c else c + 1) := by
          simp only [outerRun, h0, if_false, Bool.false_eq_true, h1, if_true]
        rw [hred]
        have : noLaterInject ((innerRun flag acts (i + 1) 0).1
            ++ [RStep.check true]) = true :=
          noLaterInject_append_noInj ihNli rfl
        simpa [noLaterInject] using this
      · have h1f : flag (innerRun flag acts (i + 1) 0).2.1 = false := by
          cases hfv : flag (innerRun flag acts (i + 1) 0).2.1 with
          | false => rfl
          | true => exact absurd hfv h1
        have hred : outerRun flag acts (n + 1) i c
            = (RStep.check false :: (innerRun flag acts (i + 1) 0).1
                 ++ RStep.check false ::
                 ((if n > 0 then [RStep.sleep (1/2 : ℚ)] else []) ++
                   (outerRun flag acts n
                     ((innerRun flag acts (i + 1) 0).2.1 + 1)
                     (if (innerRun flag acts (i + 1) 0).2.2 then c
                      else c + 1)).1),
               (outerRun flag acts n ((innerRun flag acts (i + 1) 0).2.1 + 1)
                 (if (innerRun flag acts (i + 1) 0).2.2 then c else c + 1)).2.1,
               (outerRun flag acts n ((innerRun flag acts (i + 1) 0).2.1 + 1)
                 (if (innerRun flag acts (i + 1) 0).2.2 then c
                  else c + 1)).2.2) := by
          simp only [outerRun, h0, if_false, Bool.false_eq_true, h1, if_true]
        rw [hred]
        have hnctPause : noCheckTrueB
            (if n > 0 then [RStep.sleep (1/2 : ℚ)] else []) = true := by
          split_ifs <;> rfl
        have hrest := noLaterInject_append_nct
          (innerRun flag acts (i + 1) 0).1
          (RStep.check false ::
            ((if n > 0 then [RStep.sleep (1/2 : ℚ)] else []) ++
              (outerRun flag acts n ((innerRun flag acts (i + 1) 0).2.1 + 1)
                (if (innerRun flag acts (i + 1) 0).2.2 then c
                 else c + 1)).1)) (ihNct h1f)
        have hpause := noLaterInject_append_nct
          (if n > 0 then [RStep.sleep (1/2 : ℚ)] else [])
          ((outerRun flag acts n ((innerRun flag acts (i + 1) 0).2.1 + 1)
            (if (innerRun flag acts (i + 1) 0).2.2 then c else c + 1)).1)
          hnctPause
        simp only [noLaterInject, List.append_eq, hrest, hpause]
        exact ih _ _

/-- Counterexample to claim C4 as stated: with cancellation already
requested before replay begins (every flag read observes `true`), the call
still performs the full startup sleep, and the first cancellation check
happens only after it — the startup sleep is a single `time.sleep`, not
interruptible, and is not preceded by any check of the stop flag. -/
theorem c4_counterexample :
    (replayRun (fun _ => true) [Action.mouse_move 1 2 0] 1 3).trace
      = [RStep.sleep 3, RStep.check true] := by decide

/-- Claim C4 (corrected): the replay loop checks the stop flag at the start
of each iteration, before each event, between consecutive sleep slices of
the chunked wait (every slice is immediately preceded by a check), and
immediately before injecting; consequently, for a monotone stop flag, once
any check observes the flag set no further event is ever injected.
However, the startup delay is one uninterruptible sleep performed before
the first check of the flag, so cancellation is *not* checked before the
startup delay completes (see the counterexample). -/
theorem c4_no_inject_after_cancel (flag : ℕ → Bool) (acts : List Action)
    (rep : ℤ) (d w wd : ℚ) (i fuel : ℕ) (hm : MonoFlag flag) :
    (replayRun flag acts rep d).trace.head? = some (RStep.sleep d) ∧
    noLaterInject (replayRun flag acts rep d).trace = true ∧
    sleepsPreceded (slicesGo flag w wd i fuel).1 = true := by
  refine ⟨rfl, ?_, slicesGo_sleepsPreceded flag w fuel wd i⟩
  show noLaterInject (RStep.sleep d :: (outerRun flag acts rep.toNat 0 0).1)
    = true
  have := outerRun_nli hm acts rep.toNat 0 0
  simpa [noLaterInject] using this

theorem c4_no_inject_after_cancel_witness :
    (replayRun (fun _ => true) [] 1 3).trace.head? = some (RStep.sleep 3) ∧
    noLaterInject (replayRun (fun _ => true) [] 1 3).trace = true ∧
    sleepsPreceded (slicesGo (fun _ => true) 1 0 0 10).1 = true :=
  c4_no_inject_after_cancel (fun _ => true) [] 1 3 1 0 0 10
    (fun _ _ _ hi => hi)

end AutoClicker
